import Mathlib

/-!
Verification of the incremental ingestion pipeline of a RAG chatbot
repository (`db_populate.py` and `get_embedding_function.py`).

The Python code is shallowly embedded:
* a LangChain `Document` becomes a `Document` structure whose metadata
  holds the fields the pipeline reads (`source`, `page`, `id`) plus an
  association list for any other entries;
* `calculate_chunk_ids` becomes a pure recursive function threading the
  `last_page_id` / `current_chunk_index` state;
* `get_embedding_function` becomes a function over an environment record
  capturing the process environment and which backends can be built;
* `add_to_chroma` becomes an interpreter over an oracle (a finite list of
  outcomes for the successive `db.add_documents` attempts), producing a
  run result, a final store, and an event log (submissions, sleeps,
  provider switches, messages).
-/

/-- Metadata dictionary of a chunk, restricted to the fields the pipeline
reads (`source`, `page`, `id`; a missing field is `none`, matching Python
`dict.get` returning `None`) together with the remaining entries. Python
renders both page numbers and paths with an f-string, so both `source` and
`page` are kept as strings here. -/
structure Metadata where
  source : Option String
  page : Option String
  id : Option String
  other : List (String × String)
deriving DecidableEq, Repr, Inhabited

/-- A chunk (LangChain `Document`): page content plus metadata. -/
structure Document where
  text : String
  metadata : Metadata
deriving DecidableEq, Repr, Inhabited

/-- `f"{source}:{page}"` of `calculate_chunk_ids`: a missing field prints
as `None`. -/
def pageId (c : Document) : String :=
  (c.metadata.source.getD "None") ++ ":" ++ (c.metadata.page.getD "None")

/-- `chunk.metadata["id"] = chunk_id`: set the `id` metadata entry. -/
def setId (c : Document) (i : String) : Document :=
  { c with metadata := { c.metadata with id := some i } }

/-- `chunk.metadata["id"]` as read back by `add_to_chroma`; in every call
site the id has been assigned by `calculate_chunk_ids` first. -/
def idOf (c : Document) : String :=
  c.metadata.id.getD ""

/-- The loop body of `calculate_chunk_ids`, threading the mutable locals
`last_page_id` and `current_chunk_index` explicitly. -/
def calcIdsAux : Option String → Nat → List Document → List Document
  | _, _, [] => []
  | last, idx, c :: cs =>
    let pid := pageId c
    let idx' := if some pid = last then idx + 1 else 0
    setId c (pid ++ ":" ++ toString idx') :: calcIdsAux (some pid) idx' cs

/-- `calculate_chunk_ids(chunks)`: `last_page_id = None`,
`current_chunk_index = 0` initially. -/
def calculate_chunk_ids (chunks : List Document) : List Document :=
  calcIdsAux none 0 chunks

/-- The sequence of `current_chunk_index` values chosen by
`calculate_chunk_ids` from a given starting state. -/
def idxSeq : Option String → Nat → List Document → List Nat
  | _, _, [] => []
  | last, idx, c :: cs =>
    let idx' := if some (pageId c) = last then idx + 1 else 0
    idx' :: idxSeq (some (pageId c)) idx' cs

/-- The chunk index assigned to position `i` of the input (starting state
of the whole run). -/
def ixAt (l : List Document) (i : Nat) : Nat :=
  (idxSeq none 0 l).getD i 0

/-- The `source:page` key of the chunk at position `i`. -/
def pageIdAt (l : List Document) (i : Nat) : String :=
  pageId (l.getD i default)

/-- Erase the `id` metadata entry; used to state that identifier
assignment changes nothing but the `id` field. -/
def stripId (c : Document) : Document :=
  { c with metadata := { c.metadata with id := none } }

section CalcIdsLemmas

theorem calcIdsAux_length (last : Option String) (idx : Nat) (l : List Document) :
    (calcIdsAux last idx l).length = l.length := by
  induction l generalizing last idx with
  | nil => rfl
  | cons c cs ih => simp [calcIdsAux, ih]

theorem idxSeq_length (last : Option String) (idx : Nat) (l : List Document) :
    (idxSeq last idx l).length = l.length := by
  induction l generalizing last idx with
  | nil => rfl
  | cons c cs ih => simp [idxSeq, ih]

theorem calcIdsAux_getD_id (l : List Document) :
    ∀ (last : Option String) (idx i : Nat), i < l.length →
      ((calcIdsAux last idx l).getD i default).metadata.id
        = some (pageId (l.getD i default) ++ ":" ++ toString ((idxSeq last idx l).getD i 0)) := by
  induction l with
  | nil => intro _ _ i h; simp at h
  | cons c cs ih =>
    intro last idx i h
    cases i with
    | zero => simp [calcIdsAux, idxSeq, setId]
    | succ j =>
      simp only [calcIdsAux, idxSeq, List.getD_cons_succ]
      exact ih _ _ j (by simpa using h)

theorem idxSeq_getD_zero (last : Option String) (idx : Nat) (c : Document)
    (cs : List Document) :
    (idxSeq last idx (c :: cs)).getD 0 0 = if some (pageId c) = last then idx + 1 else 0 := by
  simp [idxSeq]

theorem idxSeq_getD_succ (l : List Document) :
    ∀ (last : Option String) (idx i : Nat), i + 1 < l.length →
      (idxSeq last idx l).getD (i + 1) 0
        = if pageId (l.getD (i + 1) default) = pageId (l.getD i default)
          then (idxSeq last idx l).getD i 0 + 1 else 0 := by
  induction l with
  | nil => intro _ _ i h; simp at h
  | cons c cs ih =>
    intro last idx i h
    cases i with
    | zero =>
      cases cs with
      | nil => simp at h
      | cons c1 cs' =>
        simp [idxSeq, Option.some_inj]
    | succ j =>
      simp only [idxSeq, List.getD_cons_succ]
      exact ih _ _ j (by simpa using h)

theorem calcIdsAux_map_stripId (l : List Document) :
    ∀ (last : Option String) (idx : Nat),
      (calcIdsAux last idx l).map stripId = l.map stripId := by
  induction l with
  | nil => intro _ _; rfl
  | cons c cs ih =>
    intro last idx
    simp only [calcIdsAux, List.map_cons, ih]
    rfl

theorem pageId_setId (c : Document) (v : String) : pageId (setId c v) = pageId c := rfl

theorem calcIdsAux_idem (l : List Document) :
    ∀ (last : Option String) (idx : Nat),
      calcIdsAux last idx (calcIdsAux last idx l) = calcIdsAux last idx l := by
  induction l with
  | nil => intro _ _; rfl
  | cons c cs ih =>
    intro last idx
    simp only [calcIdsAux, pageId_setId]
    exact congrArg _ (ih _ _)

end CalcIdsLemmas

/-- The two embedding provider variants returned by
`get_embedding_function`: `OpenAIEmbeddings` (remote) or the
sentence-transformers wrapper (local). -/
inductive Provider where
  | remote
  | local
deriving DecidableEq, Repr

/-- Environment of `get_embedding_function.py`: the relevant process
environment variables and which constructions would succeed. -/
structure EmbEnv where
  /-- `os.environ.get("USE_LOCAL_EMBEDDINGS", "")`. -/
  useLocalVar : String
  /-- `os.environ.get("OPENAI_API_KEY")` (`none` when unset). -/
  openAIKey : Option String
  /-- Whether `from langchain_openai import OpenAIEmbeddings` succeeded
  (module-level try, `OpenAIEmbeddings is not None`). -/
  openAIImportable : Bool
  /-- Whether `OpenAIEmbeddings(model="text-embedding-3-small")` raises no
  exception. -/
  remoteConstructs : Bool
  /-- Whether `_make_sentence_transformer_wrapper()` raises no exception
  (sentence-transformers installed and the model loads). -/
  localConstructs : Bool
deriving DecidableEq, Repr

/-- Python truthiness of `os.environ.get("OPENAI_API_KEY")`: set and
non-empty. -/
def keyTruthy : Option String → Bool
  | none => false
  | some s => s != ""

/-- ASCII lowercasing of `str.lower()` (character-by-character, kept
kernel-computable). -/
def pyLower (s : String) : String :=
  ⟨s.data.map Char.toLower⟩

/-- `os.environ.get("USE_LOCAL_EMBEDDINGS", "").lower() in ("1", "true", "yes")`. -/
def useLocalFlag (v : String) : Bool :=
  pyLower v == "1" || pyLower v == "true" || pyLower v == "yes"

/-- The `RuntimeError` message raised when no backend works (apostrophes
of the source string elided). -/
def NO_BACKEND_MSG : String :=
  "No working embedding backend found. Set OPENAI_API_KEY for OpenAI or install sentence-transformers and set USE_LOCAL_EMBEDDINGS=1 to use a local model."

/-- The `warnings.warn` message prefix emitted when `OpenAIEmbeddings`
construction fails. -/
def REMOTE_FAIL_WARNING : String :=
  "OpenAIEmbeddings unavailable. Falling back to local embeddings if available."

/-- `get_embedding_function()`: first component is the warning emitted (if
any), second the returned provider or the raised `RuntimeError` message. -/
def get_embedding_function (e : EmbEnv) : Option String × Except String Provider :=
  let use_local := useLocalFlag e.useLocalVar
  if !use_local && e.openAIImportable && keyTruthy e.openAIKey then
    if e.remoteConstructs then (none, Except.ok Provider.remote)
    else if e.localConstructs then (some REMOTE_FAIL_WARNING, Except.ok Provider.local)
    else (some REMOTE_FAIL_WARNING, Except.error NO_BACKEND_MSG)
  else
    if e.localConstructs then (none, Except.ok Provider.local)
    else (none, Except.error NO_BACKEND_MSG)

/-- `os.environ["USE_LOCAL_EMBEDDINGS"] = "1"` performed by the quota
fallback before re-acquiring a provider. -/
def forceLocal (e : EmbEnv) : EmbEnv :=
  { e with useLocalVar := "1" }

/-- Outcome of one `db.add_documents(batch, ids=batch_ids)` attempt, as
classified by the `except` clauses of `add_to_chroma`: success, a
`RateLimitError` whose text marks exhausted quota, any other
`RateLimitError`, or any other exception. -/
inductive SubmitOutcome where
  | ok
  | rateLimited
  | quotaExhausted
  | otherError
deriving DecidableEq, Repr

/-- Observable actions of an `add_to_chroma` run. -/
inductive Event where
  /-- One `db.add_documents(batch, ids=batch_ids)` call with these ids. -/
  | submit (ids : List String)
  /-- `✅ Persisted batch {n}` after a successful batch. -/
  | persisted (batchNo : Nat)
  /-- `✅ Added batch {n} ({size} docs) (no persist method detected)`. -/
  | addedNoPersist (batchNo : Nat) (size : Nat)
  /-- `time.sleep(RETRY_DELAY)` on a transient rate limit. -/
  | sleep (seconds : Nat)
  /-- `❌ Insufficient quota detected` branch entered. -/
  | quotaDetected
  /-- Provider replaced, store re-opened and existing ids re-read. -/
  | switchedLocal
  /-- `👉 Adding new documents: {n}`. -/
  | addingCount (n : Nat)
  /-- `✅ No new documents to add`. -/
  | nothingToAdd
deriving DecidableEq, Repr

/-- The persistent Chroma collection, reduced to the ids it holds (in
order of addition). `db.get(include=[])["ids"]` reads them;
`db.add_documents` appends. -/
structure Store where
  ids : List String
deriving DecidableEq, Repr

/-- Effect of a successful `db.add_documents(batch, ids=batch_ids)`. -/
def Store.addIds (s : Store) (l : List String) : Store :=
  ⟨s.ids ++ l⟩

/-- Environment of an `add_to_chroma` run: the embedding environment plus
whether `_persist_db` finds a persist method at any layer. -/
structure Env where
  emb : EmbEnv
  persistAvailable : Bool
deriving DecidableEq, Repr

/-- Mutable state of an `add_to_chroma` run: the store, the event log, the
locals `db`-provider variant (`providerLocal` records whether the active
provider is the forced-local one) and `existing_ids`. -/
structure RunState where
  store : Store
  events : List Event
  providerLocal : Bool
  existingIds : List String
deriving DecidableEq, Repr

def BATCH_SIZE : Nat := 100

def RETRY_DELAY : Nat := 20

/-- Events logged after a successful `db.add_documents`, depending on
whether `_persist_db` found a persist method. -/
def persistEvents (env : Env) (batchNo size : Nat) : List Event :=
  if env.persistAvailable then [Event.persisted batchNo]
  else [Event.addedNoPersist batchNo size]

/-- Result of the `while True` loop around one batch. `pending` marks an
oracle that ran out while the loop was still retrying (the loop itself
never gives up). -/
inductive BatchResult where
  | success (st : RunState) (rest : List SubmitOutcome)
  | fatal (st : RunState)
  | propagated (st : RunState)
  | pending (st : RunState)
deriving DecidableEq, Repr

/-- The `while True: try: db.add_documents(...)` loop of `add_to_chroma`
for one batch, driven by the oracle of submission outcomes:
* `ok`: commit the batch, `_persist_db`, `break`;
* `otherError`: the exception is not a `RateLimitError`, propagate;
* `rateLimited`: print, `time.sleep(RETRY_DELAY)`, loop;
* `quotaExhausted`: set `USE_LOCAL_EMBEDDINGS=1` and call
  `get_embedding_function()`; on failure `sys.exit(1)`; on success rebuild
  the Chroma handle, refresh `existing_ids` from the store, loop. -/
def runBatch (env : Env) (batchIds : List String) (batchNo size : Nat) :
    RunState → List SubmitOutcome → BatchResult
  | st, [] => BatchResult.pending st
  | st, SubmitOutcome.ok :: rest =>
    BatchResult.success
      { st with
        store := st.store.addIds batchIds,
        events := st.events ++ [Event.submit batchIds] ++ persistEvents env batchNo size }
      rest
  | st, SubmitOutcome.otherError :: _ =>
    BatchResult.propagated { st with events := st.events ++ [Event.submit batchIds] }
  | st, SubmitOutcome.rateLimited :: rest =>
    runBatch env batchIds batchNo size
      { st with events := st.events ++ [Event.submit batchIds, Event.sleep RETRY_DELAY] }
      rest
  | st, SubmitOutcome.quotaExhausted :: rest =>
    match (get_embedding_function (forceLocal env.emb)).2 with
    | Except.error _ =>
      BatchResult.fatal
        { st with events := st.events ++ [Event.submit batchIds, Event.quotaDetected] }
    | Except.ok _ =>
      runBatch env batchIds batchNo size
        { st with
          events := st.events ++
            [Event.submit batchIds, Event.quotaDetected, Event.switchedLocal],
          providerLocal := true,
          existingIds := st.store.ids }
        rest

/-- Result of a whole `add_to_chroma` call. -/
inductive RunResult where
  | completed (st : RunState)
  | fatal (st : RunState)
  | propagated (st : RunState)
  | pending (st : RunState)
deriving DecidableEq, Repr

/-- The `for i in range(0, len(new_chunks), BATCH_SIZE)` loop: one
`runBatch` per batch, in order, threading state and oracle. -/
def runBatches (env : Env) : List (List Document) → Nat → RunState → List SubmitOutcome → RunResult
  | [], _, st, _ => RunResult.completed st
  | b :: bs, n, st, orc =>
    match runBatch env (b.map idOf) n b.length st orc with
    | BatchResult.success st' rest => runBatches env bs (n + 1) st' rest
    | BatchResult.fatal st' => RunResult.fatal st'
    | BatchResult.propagated st' => RunResult.propagated st'
    | BatchResult.pending st' => RunResult.pending st'

/-- Structural helper for `batchesOf`: the fuel dominates the list length,
so the slicing loop is structurally recursive (and evaluates in the
kernel). -/
def batchesOfFuel : Nat → Nat → List Document → List (List Document)
  | _, _, [] => []
  | 0, _, _ :: _ => []
  | _ + 1, 0, _ :: _ => []
  | fuel + 1, n + 1, x :: xs =>
    ((x :: xs).take (n + 1)) :: batchesOfFuel fuel (n + 1) ((x :: xs).drop (n + 1))

/-- `new_chunks[i:i+n]` slices taken by the batching loop (`n` is the
positive literal `BATCH_SIZE`; a zero step would raise in Python and is
mapped to no batches). -/
def batchesOf (n : Nat) (l : List Document) : List (List Document) :=
  batchesOfFuel l.length n l

theorem batchesOfFuel_fuel_irrel (fuel₁ : Nat) :
    ∀ (fuel₂ n : Nat) (l : List Document), l.length ≤ fuel₁ → l.length ≤ fuel₂ →
      batchesOfFuel fuel₁ n l = batchesOfFuel fuel₂ n l := by
  induction fuel₁ with
  | zero =>
    intro fuel₂ n l h1 h2
    have : l = [] := by
      cases l with
      | nil => rfl
      | cons x xs => simp at h1
    subst this
    cases fuel₂ <;> cases n <;> rfl
  | succ f ih =>
    intro fuel₂ n l h1 h2
    cases l with
    | nil => cases fuel₂ <;> cases n <;> rfl
    | cons x xs =>
      cases fuel₂ with
      | zero => simp at h2
      | succ f₂ =>
        cases n with
        | zero => rfl
        | succ m =>
          simp only [batchesOfFuel]
          rw [ih f₂ (m + 1) ((x :: xs).drop (m + 1)) ?_ ?_]
          · simp only [List.length_drop, List.length_cons] at h1 ⊢
            omega
          · simp only [List.length_drop, List.length_cons] at h2 ⊢
            omega

/-- The `new_chunks` filter of `add_to_chroma`: chunks whose id is not in
the existing-id set, in input order. -/
def newChunks (existing : List String) (l : List Document) : List Document :=
  l.filter (fun c => !(existing.contains (idOf c)))

/-- The implicitly skipped duplicates: chunks whose id is already in the
existing-id set. -/
def skippedChunks (existing : List String) (l : List Document) : List Document :=
  l.filter (fun c => existing.contains (idOf c))

/-- `add_to_chroma(chunks)`: open the store with `get_embedding_function()`
(a raised `RuntimeError` propagates), assign ids, read the existing-id
set, filter, and either report nothing to add or run the batch loop. -/
def add_to_chroma (env : Env) (store : Store) (chunks : List Document)
    (oracle : List SubmitOutcome) : RunResult :=
  match (get_embedding_function env.emb).2 with
  | Except.error _ =>
    RunResult.propagated { store := store, events := [], providerLocal := false, existingIds := [] }
  | Except.ok p =>
    let cwi := calculate_chunk_ids chunks
    let existing := store.ids
    let nc := newChunks existing cwi
    let st0 : RunState :=
      { store := store, events := [], providerLocal := p == Provider.local,
        existingIds := existing }
    if nc.length ≠ 0 then
      runBatches env (batchesOf BATCH_SIZE nc) 1
        { st0 with events := [Event.addingCount nc.length] } oracle
    else
      RunResult.completed { st0 with events := [Event.nothingToAdd] }

/-- The submission payloads recorded in an event log, in order. -/
def submitsOf : List Event → List (List String)
  | [] => []
  | Event.submit ids :: evs => ids :: submitsOf evs
  | Event.persisted _ :: evs => submitsOf evs
  | Event.addedNoPersist _ _ :: evs => submitsOf evs
  | Event.sleep _ :: evs => submitsOf evs
  | Event.quotaDetected :: evs => submitsOf evs
  | Event.switchedLocal :: evs => submitsOf evs
  | Event.addingCount _ :: evs => submitsOf evs
  | Event.nothingToAdd :: evs => submitsOf evs

section ReconcilerLemmas

theorem batchesOf_cons (n : Nat) (x : Document) (xs : List Document) :
    batchesOf (n + 1) (x :: xs)
      = ((x :: xs).take (n + 1)) :: batchesOf (n + 1) ((x :: xs).drop (n + 1)) := by
  show batchesOfFuel (xs.length + 1) (n + 1) (x :: xs) = _
  simp only [batchesOfFuel, batchesOf]
  rw [batchesOfFuel_fuel_irrel xs.length ((x :: xs).drop (n + 1)).length (n + 1)
    ((x :: xs).drop (n + 1)) ?_ ?_]
  · simp [List.length_drop]
  · simp

theorem batchesOf_flatten (n : Nat) (l : List Document) :
    (batchesOf (n + 1) l).flatten = l := by
  match l with
  | [] => simp [batchesOf, batchesOfFuel]
  | x :: xs =>
    rw [batchesOf_cons]
    have ih := batchesOf_flatten n ((x :: xs).drop (n + 1))
    simp only [List.flatten_cons, ih, List.take_append_drop]
termination_by l.length
decreasing_by simp [List.length_drop]; omega

theorem submitsOf_append (l₁ l₂ : List Event) :
    submitsOf (l₁ ++ l₂) = submitsOf l₁ ++ submitsOf l₂ := by
  induction l₁ with
  | nil => rfl
  | cons e evs ih => cases e <;> simp [submitsOf, ih]

theorem submitsOf_persistEvents (env : Env) (n sz : Nat) :
    submitsOf (persistEvents env n sz) = [] := by
  cases h : env.persistAvailable <;> simp [persistEvents, submitsOf, h]

theorem runBatch_success_store (env : Env) (ids : List String) (n sz : Nat)
    (orc : List SubmitOutcome) :
    ∀ (st st' : RunState) (rest : List SubmitOutcome),
      runBatch env ids n sz st orc = BatchResult.success st' rest →
      st'.store.ids = st.store.ids ++ ids := by
  induction orc with
  | nil => intro st st' rest h; simp [runBatch] at h
  | cons o rest' ih =>
    intro st st' rest h
    cases o with
    | ok =>
      simp only [runBatch, BatchResult.success.injEq] at h
      rw [← h.1]
      simp [Store.addIds]
    | rateLimited =>
      simp only [runBatch] at h
      have h2 := ih _ _ _ h
      exact h2
    | quotaExhausted =>
      cases hge : (get_embedding_function (forceLocal env.emb)).2 with
      | error e => simp [runBatch, hge] at h
      | ok p =>
        simp only [runBatch, hge] at h
        have h2 := ih _ _ _ h
        exact h2
    | otherError => simp [runBatch] at h

theorem runBatch_success_submits (env : Env) (ids : List String) (n sz : Nat)
    (orc : List SubmitOutcome) :
    ∀ (st st' : RunState) (rest : List SubmitOutcome),
      runBatch env ids n sz st orc = BatchResult.success st' rest →
      ∃ evs, st'.events = st.events ++ evs ∧ submitsOf evs ≠ [] ∧
        (∀ b ∈ submitsOf evs, b = ids) := by
  induction orc with
  | nil => intro st st' rest h; simp [runBatch] at h
  | cons o rest' ih =>
    intro st st' rest h
    cases o with
    | ok =>
      simp only [runBatch, BatchResult.success.injEq] at h
      refine ⟨[Event.submit ids] ++ persistEvents env n sz, ?_, ?_, ?_⟩
      · rw [← h.1]; simp
      · simp [submitsOf_append, submitsOf_persistEvents, submitsOf]
      · intro b hb
        simp [submitsOf_append, submitsOf_persistEvents, submitsOf] at hb
        exact hb
    | rateLimited =>
      simp only [runBatch] at h
      obtain ⟨evs, he, hne, hall⟩ := ih _ _ _ h
      refine ⟨[Event.submit ids, Event.sleep RETRY_DELAY] ++ evs, ?_, ?_, ?_⟩
      · rw [he]; simp
      · simp [submitsOf_append, submitsOf]
      · intro b hb
        rw [submitsOf_append] at hb
        simp only [submitsOf, List.cons_append, List.nil_append, List.mem_cons] at hb
        rcases hb with hb | hb
        · exact hb
        · exact hall b hb
    | quotaExhausted =>
      cases hge : (get_embedding_function (forceLocal env.emb)).2 with
      | error e => simp [runBatch, hge] at h
      | ok p =>
        simp only [runBatch, hge] at h
        obtain ⟨evs, he, hne, hall⟩ := ih _ _ _ h
        refine ⟨[Event.submit ids, Event.quotaDetected, Event.switchedLocal] ++ evs, ?_, ?_, ?_⟩
        · rw [he]; simp
        · simp [submitsOf_append, submitsOf]
        · intro b hb
          rw [submitsOf_append] at hb
          simp only [submitsOf, List.cons_append, List.nil_append, List.mem_cons] at hb
          rcases hb with hb | hb
          · exact hb
          · exact hall b hb
    | otherError => simp [runBatch] at h

theorem runBatch_propagated_store (env : Env) (ids : List String) (n sz : Nat)
    (orc : List SubmitOutcome) :
    ∀ (st st' : RunState),
      runBatch env ids n sz st orc = BatchResult.propagated st' →
      st'.store = st.store := by
  induction orc with
  | nil => intro st st' h; simp [runBatch] at h
  | cons o rest' ih =>
    intro st st' h
    cases o with
    | ok => simp [runBatch] at h
    | rateLimited =>
      simp only [runBatch] at h
      have h2 := ih _ _ h
      exact h2
    | quotaExhausted =>
      cases hge : (get_embedding_function (forceLocal env.emb)).2 with
      | error e => simp [runBatch, hge] at h
      | ok p =>
        simp only [runBatch, hge] at h
        have h2 := ih _ _ h
        exact h2
    | otherError =>
      simp only [runBatch, BatchResult.propagated.injEq] at h
      rw [← h]

theorem runBatches_completed_store (env : Env) (bs : List (List Document)) :
    ∀ (n : Nat) (st st' : RunState) (orc : List SubmitOutcome),
      runBatches env bs n st orc = RunResult.completed st' →
      st'.store.ids = st.store.ids ++ (bs.map (fun b => b.map idOf)).flatten := by
  induction bs with
  | nil =>
    intro n st st' orc h
    simp only [runBatches, RunResult.completed.injEq] at h
    rw [← h]; simp
  | cons b bs' ih =>
    intro n st st' orc h
    simp only [runBatches] at h
    cases hb : runBatch env (b.map idOf) n b.length st orc with
    | success st1 rest =>
      rw [hb] at h
      have h1 := runBatch_success_store env (b.map idOf) n b.length orc st st1 rest hb
      have h2 := ih (n + 1) st1 st' rest h
      rw [h2, h1]
      simp
    | fatal st1 => rw [hb] at h; simp at h
    | propagated st1 => rw [hb] at h; simp at h
    | pending st1 => rw [hb] at h; simp at h

theorem runBatches_propagated_store (env : Env) (bs : List (List Document)) :
    ∀ (n : Nat) (st st' : RunState) (orc : List SubmitOutcome),
      runBatches env bs n st orc = RunResult.propagated st' →
      ∃ k, st'.store.ids
        = st.store.ids ++ ((bs.take k).map (fun b => b.map idOf)).flatten := by
  induction bs with
  | nil => intro n st st' orc h; simp [runBatches] at h
  | cons b bs' ih =>
    intro n st st' orc h
    simp only [runBatches] at h
    cases hb : runBatch env (b.map idOf) n b.length st orc with
    | success st1 rest =>
      rw [hb] at h
      have h1 := runBatch_success_store env (b.map idOf) n b.length orc st st1 rest hb
      obtain ⟨k, hk⟩ := ih (n + 1) st1 st' rest h
      refine ⟨k + 1, ?_⟩
      rw [hk, h1]
      simp
    | fatal st1 => rw [hb] at h; simp at h
    | propagated st1 =>
      rw [hb] at h
      simp only [RunResult.propagated.injEq] at h
      have h1 := runBatch_propagated_store env (b.map idOf) n b.length orc st st1 hb
      refine ⟨0, ?_⟩
      rw [← h, h1]
      simp
    | pending st1 => rw [hb] at h; simp at h

theorem runBatches_allOk (env : Env) (bs : List (List Document)) :
    ∀ (n : Nat) (st : RunState) (rest : List SubmitOutcome),
      ∃ st', runBatches env bs n st (List.replicate bs.length SubmitOutcome.ok ++ rest)
          = RunResult.completed st' ∧
        submitsOf st'.events = submitsOf st.events ++ bs.map (fun b => b.map idOf) ∧
        st'.store.ids = st.store.ids ++ (bs.map (fun b => b.map idOf)).flatten := by
  induction bs with
  | nil => intro n st rest; exact ⟨st, rfl, by simp, by simp⟩
  | cons b bs' ih =>
    intro n st rest
    simp only [List.length_cons, List.replicate_succ, List.cons_append, runBatches, runBatch]
    obtain ⟨st', h1, h2, h3⟩ := ih (n + 1)
      { st with
        store := st.store.addIds (b.map idOf),
        events := st.events ++ [Event.submit (b.map idOf)] ++ persistEvents env n b.length }
      rest
    refine ⟨st', h1, ?_, ?_⟩
    · rw [h2]
      simp only [submitsOf_append, submitsOf_persistEvents, submitsOf, List.map_cons]
      simp
    · rw [h3]
      simp [Store.addIds]

end ReconcilerLemmas


section SampleInputs

/-- Sample chunk: page 0 of `a.pdf`. -/
def docA0 : Document :=
  { text := "alpha", metadata := { source := some "a.pdf", page := some "0", id := none, other := [] } }

/-- Second sample chunk of the same page. -/
def docA0b : Document :=
  { text := "beta", metadata := { source := some "a.pdf", page := some "0", id := none, other := [] } }

/-- Sample chunk of a different page. -/
def docB1 : Document :=
  { text := "gamma", metadata := { source := some "b.pdf", page := some "1", id := none, other := [] } }

/-- Sample ordered chunk sequence: two chunks of one page, then one of
another. -/
def sampleChunks : List Document := [docA0, docA0b, docB1]

/-- Sample chunk with no `source` and no `page` metadata. -/
def docNoMeta1 : Document :=
  { text := "one", metadata := { source := none, page := none, id := none, other := [] } }

/-- A second metadata-less chunk from a distinct origin. -/
def docNoMeta2 : Document :=
  { text := "two", metadata := { source := none, page := none, id := none, other := [("k", "v")] } }

end SampleInputs

/-- C2: `calculate_chunk_ids` assigns position `i` the id
`source:page:index`, where the first chunk gets index 0 and the index of
each later chunk is the previous index plus one exactly when its
`source:page` equals that of the immediately preceding chunk, and 0
otherwise — so each maximal contiguous run of one `source:page` is
indexed 0, 1, 2, … with no gaps or repeats. -/
theorem calc_ids_assignment (l : List Document) (i : Nat) (h : i < l.length) :
    ((calculate_chunk_ids l).getD i default).metadata.id
      = some (pageIdAt l i ++ ":" ++ toString (ixAt l i)) ∧
    ixAt l 0 = 0 ∧
    (i + 1 < l.length →
      ixAt l (i + 1)
        = if pageIdAt l (i + 1) = pageIdAt l i then ixAt l i + 1 else 0) := by
  refine ⟨calcIdsAux_getD_id l none 0 i h, ?_, ?_⟩
  · cases l with
    | nil => rfl
    | cons c cs => simp [ixAt, idxSeq]
  · intro h2
    exact idxSeq_getD_succ l none 0 i h2

/-- Witness for C2 at a concrete three-chunk input. -/
theorem calc_ids_assignment_witness :
    ((calculate_chunk_ids sampleChunks).getD 1 default).metadata.id
      = some (pageIdAt sampleChunks 1 ++ ":" ++ toString (ixAt sampleChunks 1)) ∧
    ixAt sampleChunks 0 = 0 ∧
    (1 + 1 < sampleChunks.length →
      ixAt sampleChunks (1 + 1)
        = if pageIdAt sampleChunks (1 + 1) = pageIdAt sampleChunks 1
          then ixAt sampleChunks 1 + 1 else 0) :=
  calc_ids_assignment sampleChunks 1 (by decide)

/-- C7: identifier assignment is deterministic and pure: re-running it on
its own output reassigns exactly the same ids, and apart from the `id`
metadata entry it changes nothing — texts, order, count and the other
metadata fields are untouched. -/
theorem calc_ids_deterministic_pure (l : List Document) :
    calculate_chunk_ids (calculate_chunk_ids l) = calculate_chunk_ids l ∧
    (calculate_chunk_ids l).map stripId = l.map stripId ∧
    (calculate_chunk_ids l).length = l.length :=
  ⟨calcIdsAux_idem l none 0, calcIdsAux_map_stripId l none 0, calcIdsAux_length none 0 l⟩

/-- C10: a chunk with missing `source` or `page` metadata never makes
`calculate_chunk_ids` fail; the missing field is rendered `None`, and two
metadata-less chunks from distinct origins share the `None:None` page key
and are indexed as one page. -/
theorem calc_ids_missing_metadata (c1 c2 : Document)
    (h1 : c1.metadata.source = none) (h2 : c1.metadata.page = none)
    (h3 : c2.metadata.source = none) (h4 : c2.metadata.page = none) :
    pageId c1 = "None:None" ∧
    (calculate_chunk_ids [c1, c2]).map (fun c => c.metadata.id)
      = [some "None:None:0", some "None:None:1"] := by
  have p1 : pageId c1 = "None:None" := by simp [pageId, h1, h2]
  have p2 : pageId c2 = "None:None" := by simp [pageId, h3, h4]
  refine ⟨p1, ?_⟩
  simp [calculate_chunk_ids, calcIdsAux, p1, p2, setId]
  exact ⟨by decide, by decide⟩

/-- Witness for C10 at two concrete metadata-less chunks. -/
theorem calc_ids_missing_metadata_witness :
    pageId docNoMeta1 = "None:None" ∧
    (calculate_chunk_ids [docNoMeta1, docNoMeta2]).map (fun c => c.metadata.id)
      = [some "None:None:0", some "None:None:1"] :=
  calc_ids_missing_metadata docNoMeta1 docNoMeta2 rfl rfl rfl rfl

/-- `List.contains` agrees with membership for strings. -/
theorem contains_iff_mem (l : List String) (a : String) : l.contains a = true ↔ a ∈ l := by
  simp [List.contains]

/-- C3: the reconciler partitions the identified input into `new_chunks`
(ids absent from the existing-id set) and the implicitly skipped
duplicates: together they are the whole input, no chunk is in both, no
id of `new_chunks` is in the existing set, and `new_chunks` keeps the
input order (it is a sublist of the input). -/
theorem partition_correctness (existing : List String) (l : List Document) :
    (newChunks existing l ++ skippedChunks existing l).Perm l ∧
    (∀ c, c ∈ l ↔ c ∈ newChunks existing l ∨ c ∈ skippedChunks existing l) ∧
    (∀ c, c ∈ newChunks existing l → idOf c ∉ existing) ∧
    (∀ c, ¬(c ∈ newChunks existing l ∧ c ∈ skippedChunks existing l)) ∧
    (newChunks existing l).Sublist l := by
  refine ⟨?_, ?_, ?_, ?_, List.filter_sublist l⟩
  · exact (List.perm_append_comm).trans
      (List.filter_append_perm (fun c => existing.contains (idOf c)) l)
  · intro c
    by_cases hm : idOf c ∈ existing <;>
      simp [newChunks, skippedChunks, List.mem_filter, hm]
  · intro c hc hmem
    simp only [newChunks, List.mem_filter, Bool.not_eq_true'] at hc
    rw [← contains_iff_mem existing (idOf c)] at hmem
    rw [hc.2] at hmem
    exact Bool.false_ne_true hmem
  · intro c ⟨h1, h2⟩
    simp only [newChunks, skippedChunks, List.mem_filter, Bool.not_eq_true'] at h1 h2
    rw [h1.2] at h2
    exact Bool.false_ne_true h2.2

/-- Witness for C3 at a concrete existing-id set and input. -/
theorem partition_correctness_witness :
    (newChunks ["a.pdf:0:0"] (calculate_chunk_ids sampleChunks)
        ++ skippedChunks ["a.pdf:0:0"] (calculate_chunk_ids sampleChunks)).Perm
      (calculate_chunk_ids sampleChunks) ∧
    (∀ c, c ∈ calculate_chunk_ids sampleChunks ↔
      c ∈ newChunks ["a.pdf:0:0"] (calculate_chunk_ids sampleChunks) ∨
      c ∈ skippedChunks ["a.pdf:0:0"] (calculate_chunk_ids sampleChunks)) ∧
    (∀ c, c ∈ newChunks ["a.pdf:0:0"] (calculate_chunk_ids sampleChunks) →
      idOf c ∉ ["a.pdf:0:0"]) ∧
    (∀ c, ¬(c ∈ newChunks ["a.pdf:0:0"] (calculate_chunk_ids sampleChunks) ∧
      c ∈ skippedChunks ["a.pdf:0:0"] (calculate_chunk_ids sampleChunks))) ∧
    (newChunks ["a.pdf:0:0"] (calculate_chunk_ids sampleChunks)).Sublist
      (calculate_chunk_ids sampleChunks) :=
  partition_correctness ["a.pdf:0:0"] (calculate_chunk_ids sampleChunks)

theorem batchesOf_nil (n : Nat) : batchesOf n ([] : List Document) = [] := by
  cases n <;> rfl

theorem batchesOf_pos_cons (n : Nat) (hn : 0 < n) (l : List Document) (h : l ≠ []) :
    batchesOf n l = l.take n :: batchesOf n (l.drop n) := by
  obtain ⟨x, xs, rfl⟩ := List.exists_cons_of_ne_nil h
  cases n with
  | zero => omega
  | succ m => exact batchesOf_cons m x xs

theorem batchesOf_flatten_pos (n : Nat) (hn : 0 < n) (l : List Document) :
    (batchesOf n l).flatten = l := by
  cases n with
  | zero => omega
  | succ m => exact batchesOf_flatten m l

theorem batchesOf_100_of_length_250 (l : List Document) (h : l.length = 250) :
    batchesOf 100 l
      = [l.take 100, (l.drop 100).take 100, ((l.drop 100).drop 100).take 100] := by
  have h0 : l ≠ [] := List.ne_nil_of_length_pos (by omega)
  have d1 : (l.drop 100).length = 150 := by simp [h]
  have h1 : l.drop 100 ≠ [] := List.ne_nil_of_length_pos (by omega)
  have d2 : ((l.drop 100).drop 100).length = 50 := by simp [List.length_drop, h]
  have h2 : (l.drop 100).drop 100 ≠ [] := List.ne_nil_of_length_pos (by omega)
  have h3 : (((l.drop 100).drop 100)).drop 100 = [] := List.drop_eq_nil_of_le (by omega)
  rw [batchesOf_pos_cons 100 (by norm_num) l h0,
    batchesOf_pos_cons 100 (by norm_num) _ h1,
    batchesOf_pos_cons 100 (by norm_num) _ h2, h3, batchesOf_nil]

theorem batchesOf_100_map_length_250 (l : List Document) (h : l.length = 250) :
    (batchesOf 100 l).map List.length = [100, 100, 50] := by
  rw [batchesOf_100_of_length_250 l h]
  simp [List.length_take, List.length_drop, h]

/-- C5: if `new_chunks` is empty the reconciler reports nothing to add and
completes with zero submissions; otherwise it submits fixed-size batches
of 100 in input order, so 250 new chunks give exactly 3 submission calls
of sizes 100, 100, 50, whose concatenation is the new ids in input
order. -/
theorem batch_submission_shape (env : Env) (store : Store) (chunks : List Document)
    (oracle : List SubmitOutcome) (p : Provider)
    (hget : (get_embedding_function env.emb).2 = Except.ok p) :
    (newChunks store.ids (calculate_chunk_ids chunks) = [] →
      add_to_chroma env store chunks oracle
        = RunResult.completed
            { store := store, events := [Event.nothingToAdd],
              providerLocal := p == Provider.local, existingIds := store.ids }) ∧
    ((newChunks store.ids (calculate_chunk_ids chunks)).length = 250 →
      ∃ st, add_to_chroma env store chunks (List.replicate 3 SubmitOutcome.ok)
          = RunResult.completed st ∧
        submitsOf st.events
          = (batchesOf 100 (newChunks store.ids (calculate_chunk_ids chunks))).map
              (fun b => b.map idOf) ∧
        (submitsOf st.events).map List.length = [100, 100, 50] ∧
        (submitsOf st.events).flatten
          = (newChunks store.ids (calculate_chunk_ids chunks)).map idOf) := by
  constructor
  · intro hnil
    simp [add_to_chroma, hget, hnil]
  · intro h250
    have hb3 : (batchesOf 100 (newChunks store.ids (calculate_chunk_ids chunks))).length = 3 := by
      have hc := congrArg List.length
        (batchesOf_100_map_length_250 (newChunks store.ids (calculate_chunk_ids chunks)) h250)
      simpa using hc
    obtain ⟨st', hrun, hsub, hst⟩ :=
      runBatches_allOk env (batchesOf 100 (newChunks store.ids (calculate_chunk_ids chunks))) 1
        { store := store, events := [Event.addingCount
            (newChunks store.ids (calculate_chunk_ids chunks)).length],
          providerLocal := p == Provider.local, existingIds := store.ids } []
    have horacle : List.replicate 3 SubmitOutcome.ok
        = List.replicate
            (batchesOf 100 (newChunks store.ids (calculate_chunk_ids chunks))).length
            SubmitOutcome.ok ++ [] := by
      rw [hb3, List.append_nil]
    refine ⟨st', ?_, ?_, ?_, ?_⟩
    · simp only [add_to_chroma, hget]
      rw [if_pos (by omega : (newChunks store.ids (calculate_chunk_ids chunks)).length ≠ 0)]
      rw [show BATCH_SIZE = 100 from rfl, horacle]
      exact hrun
    · rw [hsub]
      simp [submitsOf]
    · rw [hsub]
      simp only [submitsOf, List.nil_append]
      rw [List.map_map]
      have : (List.length ∘ fun b => List.map idOf b)
          = fun b : List Document => b.length := by
        funext b; simp
      rw [this]
      exact batchesOf_100_map_length_250 _ h250
    · rw [hsub]
      simp only [submitsOf, List.nil_append]
      rw [← List.map_flatten, batchesOf_flatten_pos 100 (by norm_num)]

/-- C6: a transient rate-limit failure makes the reconciler sleep exactly
20 seconds and resubmit the very same batch with no other state change,
and for every number k of consecutive rate-limit failures followed by a
success the batch is still committed — unbounded retries that never
surface the transient error as a run failure. -/
theorem rate_limit_retry (env : Env) (ids : List String) (n sz k : Nat)
    (st : RunState) (rest : List SubmitOutcome) :
    (runBatch env ids n sz st (SubmitOutcome.rateLimited :: rest)
      = runBatch env ids n sz
          { st with events := st.events ++ [Event.submit ids, Event.sleep 20] } rest) ∧
    (runBatch env ids n sz st
        (List.replicate k SubmitOutcome.rateLimited ++ SubmitOutcome.ok :: rest)
      = BatchResult.success
          { st with
            store := st.store.addIds ids,
            events := st.events
              ++ (List.replicate k [Event.submit ids, Event.sleep 20]).flatten
              ++ [Event.submit ids] ++ persistEvents env n sz }
          rest) := by
  refine ⟨rfl, ?_⟩
  induction k generalizing st with
  | zero => simp [runBatch]
  | succ m ih =>
    simp only [List.replicate_succ, List.cons_append, runBatch, RETRY_DELAY, List.append_eq]
    rw [ih]
    simp [List.flatten_cons, List.append_assoc]

/-- C8: a submission failure that is neither a rate limit nor quota
exhaustion propagates immediately — no retry, no sleep, the store
untouched by the failing batch — and a propagated run leaves exactly the
batches committed before the failure in the store (no rollback). -/
theorem unclassified_error_propagation (env : Env) (ids : List String) (n sz : Nat)
    (st st' : RunState) (rest orc : List SubmitOutcome) (bs : List (List Document)) :
    (runBatch env ids n sz st (SubmitOutcome.otherError :: rest)
      = BatchResult.propagated { st with events := st.events ++ [Event.submit ids] }) ∧
    (runBatches env bs n st orc = RunResult.propagated st' →
      ∃ k, st'.store.ids
        = st.store.ids ++ ((bs.take k).map (fun b => b.map idOf)).flatten) :=
  ⟨rfl, fun h => runBatches_propagated_store env bs n st st' orc h⟩

/-- C4: on a permanent quota-exhaustion error the reconciler re-acquires a
provider in forced-local mode; when that succeeds it marks the provider
local, refreshes the existing-id set from the store, and resubmits the
very same batch, which commits exactly its ids once (no duplicates when
the batch ids are fresh); when local construction fails the run ends
fatally. -/
theorem quota_fallback (env : Env) (ids : List String) (n sz : Nat) (st : RunState)
    (rest : List SubmitOutcome) :
    ((∃ p, (get_embedding_function (forceLocal env.emb)).2 = Except.ok p) →
      runBatch env ids n sz st
          (SubmitOutcome.quotaExhausted :: SubmitOutcome.ok :: rest)
        = BatchResult.success
            { store := st.store.addIds ids,
              events := st.events
                ++ [Event.submit ids, Event.quotaDetected, Event.switchedLocal,
                    Event.submit ids]
                ++ persistEvents env n sz,
              providerLocal := true,
              existingIds := st.store.ids } rest) ∧
    (ids.Nodup → st.store.ids.Nodup → (∀ a ∈ ids, a ∉ st.store.ids) →
      (st.store.addIds ids).ids.Nodup) ∧
    (∀ e, (get_embedding_function (forceLocal env.emb)).2 = Except.error e →
      runBatch env ids n sz st
          (SubmitOutcome.quotaExhausted :: SubmitOutcome.ok :: rest)
        = BatchResult.fatal
            { st with events := st.events ++ [Event.submit ids, Event.quotaDetected] }) := by
  refine ⟨?_, ?_, ?_⟩
  · rintro ⟨p, hp⟩
    simp [runBatch, hp, List.append_assoc]
  · intro h1 h2 h3
    simp only [Store.addIds, List.nodup_append]
    exact ⟨h2, h1, fun a ha hb => h3 a hb ha⟩
  · intro e he
    simp [runBatch, he]

theorem add_to_chroma_completed (env : Env) (store : Store) (chunks : List Document)
    (oracle : List SubmitOutcome) (st1 : RunState)
    (h : add_to_chroma env store chunks oracle = RunResult.completed st1) :
    (∃ p, (get_embedding_function env.emb).2 = Except.ok p) ∧
    st1.store.ids
      = store.ids ++ (newChunks store.ids (calculate_chunk_ids chunks)).map idOf := by
  cases hge : (get_embedding_function env.emb).2 with
  | error e => simp [add_to_chroma, hge] at h
  | ok p =>
    refine ⟨⟨p, rfl⟩, ?_⟩
    simp only [add_to_chroma, hge] at h
    by_cases hnc : (newChunks store.ids (calculate_chunk_ids chunks)).length ≠ 0
    · rw [if_pos hnc] at h
      have h2 := runBatches_completed_store env
        (batchesOf BATCH_SIZE (newChunks store.ids (calculate_chunk_ids chunks)))
        1 _ st1 oracle h
      rw [h2, ← List.map_flatten,
        batchesOf_flatten_pos BATCH_SIZE (by decide)
          (newChunks store.ids (calculate_chunk_ids chunks))]
    · rw [if_neg hnc] at h
      have hnil : newChunks store.ids (calculate_chunk_ids chunks) = [] := by
        rcases List.eq_nil_or_concat (newChunks store.ids (calculate_chunk_ids chunks))
          with he | ⟨l', a, he⟩
        · exact he
        · exfalso; apply hnc; rw [he]; simp
      simp only [RunResult.completed.injEq] at h
      rw [← h, hnil]
      simp

/-- C1: a reconciliation run that completes leaves every input chunk id in
the store, so running `add_to_chroma` again over the same chunk sequence
against the resulting store computes an empty `new_chunks` set and
performs zero add submissions. -/
theorem reingestion_idempotent (env : Env) (store : Store) (chunks : List Document)
    (oracle : List SubmitOutcome) (st1 : RunState)
    (h : add_to_chroma env store chunks oracle = RunResult.completed st1) :
    newChunks st1.store.ids (calculate_chunk_ids chunks) = [] ∧
    ∀ oracle2, ∃ st2,
      add_to_chroma env st1.store chunks oracle2 = RunResult.completed st2 ∧
      submitsOf st2.events = [] ∧ st2.store = st1.store ∧
      Event.nothingToAdd ∈ st2.events := by
  obtain ⟨⟨p, hp⟩, hstore⟩ := add_to_chroma_completed env store chunks oracle st1 h
  have hall : newChunks st1.store.ids (calculate_chunk_ids chunks) = [] := by
    simp only [newChunks, List.filter_eq_nil_iff]
    intro c hc
    simp only [Bool.not_eq_true', Bool.not_eq_false]
    rw [contains_iff_mem, hstore]
    by_cases hm : idOf c ∈ store.ids
    · exact List.mem_append_left _ hm
    · refine List.mem_append_right _ (List.mem_map.mpr ⟨c, ?_, rfl⟩)
      refine List.mem_filter.mpr ⟨hc, ?_⟩
      simp only [Bool.not_eq_true']
      by_cases hcon : store.ids.contains (idOf c) = true
      · exact absurd ((contains_iff_mem _ _).mp hcon) hm
      · simpa using hcon
  refine ⟨hall, ?_⟩
  intro oracle2
  have hrun : add_to_chroma env st1.store chunks oracle2
      = RunResult.completed
          { store := st1.store, events := [Event.nothingToAdd],
            providerLocal := p == Provider.local, existingIds := st1.store.ids } := by
    simp [add_to_chroma, hp, hall]
  exact ⟨_, hrun, by simp [submitsOf], rfl, by simp⟩

theorem get_embedding_function_error_msg (e : EmbEnv) (m : String)
    (h : (get_embedding_function e).2 = Except.error m) : m = NO_BACKEND_MSG := by
  by_cases h1 : useLocalFlag e.useLocalVar = true <;>
    by_cases h2 : e.openAIImportable = true <;>
    by_cases h3 : keyTruthy e.openAIKey = true <;>
    by_cases h4 : e.remoteConstructs = true <;>
    by_cases h5 : e.localConstructs = true <;>
    simp [get_embedding_function, h1, h2, h3, h4, h5] at h <;>
    (first | exact h | exact h.symm)

theorem no_backend_msg_names_paths :
    (∃ s t, s ++ "OPENAI_API_KEY".data ++ t = NO_BACKEND_MSG.data) ∧
    (∃ s t, s ++ "sentence-transformers".data ++ t = NO_BACKEND_MSG.data) ∧
    (∃ s t, s ++ "USE_LOCAL_EMBEDDINGS=1".data ++ t = NO_BACKEND_MSG.data) := by
  refine ⟨⟨"No working embedding backend found. Set ".data,
      " for OpenAI or install sentence-transformers and set USE_LOCAL_EMBEDDINGS=1 to use a local model.".data, ?_⟩,
    ⟨"No working embedding backend found. Set OPENAI_API_KEY for OpenAI or install ".data,
      " and set USE_LOCAL_EMBEDDINGS=1 to use a local model.".data, ?_⟩,
    ⟨"No working embedding backend found. Set OPENAI_API_KEY for OpenAI or install sentence-transformers and set ".data,
      " to use a local model.".data, ?_⟩⟩ <;> decide

/-- C9: `get_embedding_function` returns the Local variant whenever the
force-local flag is set (and Local constructs); it returns the Remote
variant exactly when the flag is unset, the remote integration imported, a
credential is configured and remote construction succeeds; a failed remote
construction warns and falls through to Local; and it raises the fatal
no-backend error exactly when the Local variant fails to construct and no
remote succeeded, with a message naming the credential, the local-model
dependency and the force-local flag. -/
theorem provider_selection (e : EmbEnv) :
    (useLocalFlag e.useLocalVar = true → e.localConstructs = true →
      (get_embedding_function e).2 = Except.ok Provider.local) ∧
    ((get_embedding_function e).2 = Except.ok Provider.remote ↔
      useLocalFlag e.useLocalVar = false ∧ e.openAIImportable = true ∧
      keyTruthy e.openAIKey = true ∧ e.remoteConstructs = true) ∧
    (useLocalFlag e.useLocalVar = false → e.openAIImportable = true →
      keyTruthy e.openAIKey = true → e.remoteConstructs = false →
      e.localConstructs = true →
      (get_embedding_function e).1 = some REMOTE_FAIL_WARNING ∧
      (get_embedding_function e).2 = Except.ok Provider.local) ∧
    ((∃ m, (get_embedding_function e).2 = Except.error m) ↔
      (e.localConstructs = false ∧
        ¬(useLocalFlag e.useLocalVar = false ∧ e.openAIImportable = true ∧
          keyTruthy e.openAIKey = true ∧ e.remoteConstructs = true))) ∧
    (∀ m, (get_embedding_function e).2 = Except.error m →
      (∃ s t, s ++ "OPENAI_API_KEY".data ++ t = m.data) ∧
      (∃ s t, s ++ "sentence-transformers".data ++ t = m.data) ∧
      (∃ s t, s ++ "USE_LOCAL_EMBEDDINGS=1".data ++ t = m.data)) := by
  refine ⟨?_, ?_, ?_, ?_, ?_⟩
  · intro hu hl
    simp [get_embedding_function, hu, hl]
  · cases h1 : useLocalFlag e.useLocalVar <;>
      cases h2 : e.openAIImportable <;>
      cases h3 : keyTruthy e.openAIKey <;>
      cases h4 : e.remoteConstructs <;>
      cases h5 : e.localConstructs <;>
      simp [get_embedding_function, h1, h2, h3, h4, h5]
  · intro h1 h2 h3 h4 h5
    simp [get_embedding_function, h1, h2, h3, h4, h5]
  · cases h1 : useLocalFlag e.useLocalVar <;>
      cases h2 : e.openAIImportable <;>
      cases h3 : keyTruthy e.openAIKey <;>
      cases h4 : e.remoteConstructs <;>
      cases h5 : e.localConstructs <;>
      simp [get_embedding_function, h1, h2, h3, h4, h5]
  · intro m hm
    rw [get_embedding_function_error_msg e m hm]
    exact no_backend_msg_names_paths

/-- A fully working environment: remote importable, credential set, both
backends construct, persist method available. -/
def wEmb : EmbEnv :=
  { useLocalVar := "", openAIKey := some "sk-test", openAIImportable := true,
    remoteConstructs := true, localConstructs := true }

/-- Reconciler environment over `wEmb`. -/
def wEnv : Env := { emb := wEmb, persistAvailable := true }

/-- Environment with no working backend at all. -/
def wEmbNoBackend : EmbEnv :=
  { useLocalVar := "", openAIKey := none, openAIImportable := false,
    remoteConstructs := false, localConstructs := false }

/-- An initial run state over an empty store. -/
def wState : RunState :=
  { store := ⟨[]⟩, events := [], providerLocal := false, existingIds := [] }

/-- Final state of a completed first ingestion of `sampleChunks` into an
empty store. -/
def wSt1 : RunState :=
  { store := ⟨["a.pdf:0:0", "a.pdf:0:1", "b.pdf:1:0"]⟩,
    events := [Event.addingCount 3,
      Event.submit ["a.pdf:0:0", "a.pdf:0:1", "b.pdf:1:0"], Event.persisted 1],
    providerLocal := false, existingIds := [] }

/-- A chunk that already carries its id. -/
def wDocId : Document :=
  { text := "alpha",
    metadata := { source := some "a.pdf", page := some "0", id := some "a.pdf:0:0", other := [] } }

/-- State after a first-attempt unclassified failure on one batch. -/
def wSt8 : RunState :=
  { store := ⟨[]⟩, events := [Event.submit ["a.pdf:0:0"]],
    providerLocal := false, existingIds := [] }

/-- Witness for C1: a concrete completed first run over an empty store. -/
theorem reingestion_idempotent_witness :
    newChunks wSt1.store.ids (calculate_chunk_ids sampleChunks) = [] ∧
    ∀ oracle2, ∃ st2,
      add_to_chroma wEnv wSt1.store sampleChunks oracle2 = RunResult.completed st2 ∧
      submitsOf st2.events = [] ∧ st2.store = wSt1.store ∧
      Event.nothingToAdd ∈ st2.events :=
  reingestion_idempotent wEnv ⟨[]⟩ sampleChunks [SubmitOutcome.ok] wSt1 rfl

/-- Witness for C4: a concrete quota-exhaustion fallback that succeeds. -/
theorem quota_fallback_witness :
    runBatch wEnv ["x:0:0"] 1 1 wState
        (SubmitOutcome.quotaExhausted :: SubmitOutcome.ok :: [])
      = BatchResult.success
          { store := wState.store.addIds ["x:0:0"],
            events := wState.events
              ++ [Event.submit ["x:0:0"], Event.quotaDetected, Event.switchedLocal,
                  Event.submit ["x:0:0"]]
              ++ persistEvents wEnv 1 1,
            providerLocal := true,
            existingIds := wState.store.ids } [] :=
  (quota_fallback wEnv ["x:0:0"] 1 1 wState []).1 ⟨Provider.local, rfl⟩

/-- Witness for C5: the empty-diff branch at a concrete environment. -/
theorem batch_submission_shape_witness :
    add_to_chroma wEnv ⟨[]⟩ [] []
      = RunResult.completed
          { store := ⟨[]⟩, events := [Event.nothingToAdd],
            providerLocal := (Provider.remote == Provider.local), existingIds := [] } :=
  (batch_submission_shape wEnv ⟨[]⟩ [] [] Provider.remote rfl).1 rfl

/-- Witness for C8: a propagated one-batch run keeps exactly the batches
committed before the failure (here none). -/
theorem unclassified_error_propagation_witness :
    ∃ k, wSt8.store.ids
      = wState.store.ids ++ (([[wDocId]].take k).map (fun b => b.map idOf)).flatten :=
  (unclassified_error_propagation wEnv ["y"] 1 1 wState wSt8 []
    [SubmitOutcome.otherError] [[wDocId]]).2 (by decide)

/-- Witness for C9: the no-backend environment raises the fatal message
naming all remediation paths. -/
theorem provider_selection_witness :
    (∃ s t, s ++ "OPENAI_API_KEY".data ++ t = NO_BACKEND_MSG.data) ∧
    (∃ s t, s ++ "sentence-transformers".data ++ t = NO_BACKEND_MSG.data) ∧
    (∃ s t, s ++ "USE_LOCAL_EMBEDDINGS=1".data ++ t = NO_BACKEND_MSG.data) :=
  (provider_selection wEmbNoBackend).2.2.2.2 NO_BACKEND_MSG rfl
